import Mathlib

/-!
Verification of the lighthouse-fpga sweep-decoding pipeline
(`tools/decodeV2.py`): wraparound timestamp arithmetic, sweep-block
aggregation and finalization, per-channel beacon tracking, and the
azimuth/elevation angle model.

Definitions are a shallow embedding of the Python source.  Machine
integers (24-bit timestamps and offsets) are modelled as `Nat` with the
masking performed explicitly (Python's `& 0x00ffffff` on a possibly
negative difference equals the Euclidean remainder mod `2^24`, which is
what `Int.emod` computes).  Object mutation is modelled by explicit
state passing: every method that mutates `self` returns the new state.
Floating point trigonometry is idealised over the reals.
-/

/-- `ts_sub(a, b) = (a - b) & 0x00ffffff` on unbounded Python ints:
the difference is taken in `ℤ` and reduced mod `2^24` (Euclidean, hence
non-negative). -/
def ts_sub (a b : Nat) : Nat :=
  (((a : Int) - (b : Int)) % (2 ^ 24 : Int)).toNat

/-- `ts_add(a, b) = (a + b) & 0x00ffffff`. -/
def ts_add (a b : Nat) : Nat :=
  (a + b) % 2 ^ 24

/-- One pulse as stored in a sweep block (`SweepData.__init__`).
`channel`/`slow_bit` are `None` when the hardware failed to decode the
identity code, hence `Option`. -/
structure SweepData where
  ts : Nat
  width : Nat
  offset : Nat
  channel : Option Nat
  slow_bit : Option Nat
  deriving DecidableEq, Repr

/-- A sweep block (`SweepBlock.__init__`): four optional sensor slots
plus the fields derived during `process`. -/
structure SweepBlock where
  sensors : Fin 4 → Option SweepData
  channel : Option Nat
  ts : Option Nat
  is_valid : Bool
  offset_sensor : Option SweepData
  slow_bit : Option Nat
  deriving DecidableEq

/-- A fresh `SweepBlock()`. -/
def SweepBlock.init : SweepBlock :=
  { sensors := fun _ => none, channel := none, ts := none,
    is_valid := false, offset_sensor := none, slow_bit := none }

/-- `SweepBlock.push`: refuse when the slot is occupied, otherwise store
the pulse.  Returns the Python `bool` together with the new state. -/
def SweepBlock.push (blk : SweepBlock) (sensor : Fin 4)
    (ts width offset : Nat) (channel slow_bit : Option Nat) :
    Bool × SweepBlock :=
  match blk.sensors sensor with
  | some _ => (false, blk)
  | none =>
    (true, { blk with
      sensors := Function.update blk.sensors sensor
        (some ⟨ts, width, offset, channel, slow_bit⟩) })

/-- The channel loop of `SweepBlock.process` (lines 96-107): walk the
sensors in order, counting decoded channels, adopting the first decoded
channel (and its slow bit) as the block's, and failing on a conflicting
channel.  The loop state is `(channel_count, self.channel, self.slow_bit)`;
an `Except.error` carries the (already mutated) channel/slow-bit pair at
the early `return False`. -/
def chanLoop (cnt : Nat) (ch sb : Option Nat) :
    List SweepData → Except (Option Nat × Option Nat) (Nat × Option Nat × Option Nat)
  | [] => .ok (cnt, ch, sb)
  | s :: rest =>
    match s.channel with
    | none => chanLoop cnt ch sb rest
    | some c =>
      match ch with
      | none => chanLoop (cnt + 1) (some c) s.slow_bit rest
      | some x =>
        if c ≠ x then .error (some x, sb)
        else chanLoop (cnt + 1) (some x) sb rest

/-- The offset loop of `SweepBlock.process` (lines 121-127): find the
single sensor with a truthy (nonzero) offset.  `Except.error` carries
the value of `self.offset_sensor` at the early `return False` (the first
offset sensor found). -/
def offsetLoop (acc : Option SweepData) :
    List SweepData → Except (Option SweepData) (Option SweepData)
  | [] => .ok acc
  | s :: rest =>
    if s.offset ≠ 0 then
      match acc with
      | some o => .error (some o)
      | none => offsetLoop (some s) rest
    else offsetLoop acc rest

/-- The timestamp loop of `SweepBlock.process` (lines 140-145).  Python
tests `if not self.ts`, which fires on `None` and also on `0`, so a
current value of `0` is overwritten by the sensor's timestamp before the
comparison. -/
def tsLoop (t : Option Nat) : List SweepData → Option Nat
  | [] => t
  | s :: rest =>
    tsLoop
      (some
        (let tv := match t with
          | none => s.ts
          | some tv => if tv = 0 then s.ts else tv
        if s.ts < tv then s.ts else tv))
      rest

/-- `sensor.channel = self.channel; sensor.slow_bit = self.slow_bit`
(lines 115-117). -/
def setIdentity (ch sb : Option Nat) (s : SweepData) : SweepData :=
  { s with channel := ch, slow_bit := sb }

/-- Back-filling of a missing (zero) offset from the reference sensor
(lines 134-137). -/
def backfill (ref s : SweepData) : SweepData :=
  if s.offset = 0 then
    { s with offset := ts_add ref.offset (ts_sub s.ts ref.ts) }
  else s

/-- `SweepBlock.process` (lines 86-148), with mutation made explicit:
returns the Python `bool` and the block state after the call, including
the partial mutations performed on the failing paths. -/
def SweepBlock.process (blk : SweepBlock) : Bool × SweepBlock :=
  match blk.sensors 0, blk.sensors 1, blk.sensors 2, blk.sensors 3 with
  | some a, some b, some c, some d =>
    match chanLoop 0 blk.channel blk.slow_bit [a, b, c, d] with
    | .error (ch, sb) => (false, { blk with channel := ch, slow_bit := sb })
    | .ok (cnt, ch, sb) =>
      if cnt ≠ 3 then (false, { blk with channel := ch, slow_bit := sb })
      else
        match offsetLoop none
            [setIdentity ch sb a, setIdentity ch sb b,
             setIdentity ch sb c, setIdentity ch sb d] with
        | .error os =>
          (false,
           { blk with
              channel := ch, slow_bit := sb,
              sensors := ![some (setIdentity ch sb a), some (setIdentity ch sb b),
                           some (setIdentity ch sb c), some (setIdentity ch sb d)],
              offset_sensor := os })
        | .ok none =>
          (false,
           { blk with
              channel := ch, slow_bit := sb,
              sensors := ![some (setIdentity ch sb a), some (setIdentity ch sb b),
                           some (setIdentity ch sb c), some (setIdentity ch sb d)],
              offset_sensor := none })
        | .ok (some osen) =>
          (true,
           { blk with
              channel := ch, slow_bit := sb,
              sensors := ![some (backfill osen (setIdentity ch sb a)),
                           some (backfill osen (setIdentity ch sb b)),
                           some (backfill osen (setIdentity ch sb c)),
                           some (backfill osen (setIdentity ch sb d))],
              offset_sensor := some osen,
              ts := tsLoop blk.ts
                [backfill osen (setIdentity ch sb a),
                 backfill osen (setIdentity ch sb b),
                 backfill osen (setIdentity ch sb c),
                 backfill osen (setIdentity ch sb d)],
              is_valid := true })
  | _, _, _, _ => (false, blk)

/-- The sensors of a block that are actually present, in slot order. -/
def SweepBlock.sensorList (blk : SweepBlock) : List SweepData :=
  (List.finRange 4).filterMap blk.sensors

/-- Number of sensors carrying a decoded identity. -/
def SweepBlock.idCount (blk : SweepBlock) : Nat :=
  (blk.sensorList.filter fun s => s.channel.isSome).length

/-- Number of sensors carrying a nonzero raw offset. -/
def SweepBlock.offCount (blk : SweepBlock) : Nat :=
  (blk.sensorList.filter fun s => s.offset ≠ 0).length

/-- The pulse aggregator (`PulseProcessor.__init__`). -/
structure PulseProcessor where
  block : Option SweepBlock
  latest_pulse : Nat
  deriving DecidableEq

/-- `PulseProcessor()` starts with no open block and `latest_pulse = 0`. -/
def PulseProcessor.init : PulseProcessor :=
  { block := none, latest_pulse := 0 }

/-- `PulseProcessor.push` (lines 248-271): on a gap larger than 10000
ticks finalize the open block (emitting it when `process` succeeds),
update `latest_pulse` unconditionally, open a fresh block if needed and
place the pulse in it, dropping the block on a slot collision. -/
def PulseProcessor.push (pp : PulseProcessor) (sensor : Fin 4)
    (ts width offset : Nat) (channel slow_bit : Option Nat) :
    Option SweepBlock × PulseProcessor :=
  let gapResult : Option SweepBlock × Option SweepBlock :=
    if ts_sub ts pp.latest_pulse > 10000 then
      match pp.block with
      | some b =>
        ((if (SweepBlock.process b).1 then some (SweepBlock.process b).2 else none),
         none)
      | none => (none, none)
    else (none, pp.block)
  let opened : SweepBlock := gapResult.2.getD SweepBlock.init
  let pushed := opened.push sensor ts width offset channel slow_bit
  (gapResult.1,
   { block := if pushed.1 then some pushed.2 else none, latest_pulse := ts })

/-- `math.radians`. -/
noncomputable def radians (x : ℝ) : ℝ := x * Real.pi / 180

/-- `calculateAE` (lines 8-13): azimuth and elevation from the two beam
angles. -/
noncomputable def calculateAE (firstBeam secondBeam : ℝ) : ℝ × ℝ :=
  ((firstBeam + secondBeam) / 2 - Real.pi,
   Real.arctan (Real.sin (((secondBeam - firstBeam) - radians 120) / 2) /
     Real.tan (radians 60 / 2)))

/-- The 16 per-channel rotation periods (lines 25-32), halved to the
24 MHz clock. -/
noncomputable def PERIODS : List ℝ :=
  [959000 / 2, 957000 / 2, 953000 / 2, 949000 / 2,
   947000 / 2, 943000 / 2, 941000 / 2, 939000 / 2,
   937000 / 2, 929000 / 2, 919000 / 2, 911000 / 2,
   907000 / 2, 901000 / 2, 893000 / 2, 887000 / 2]

/-- A finalized sweep block as consumed by `BaseStation`: the tracker
dereferences `block.sensors[i]`, `block.ts` and `block.channel`
unconditionally, so its input is a block whose optional fields are all
populated (which `SweepBlock.process` guarantees for every emitted
block). -/
structure FinalizedBlock where
  sensors : Fin 4 → SweepData
  channel : Nat
  ts : Nat
  deriving DecidableEq

/-- The per-sensor angle results (`Angles.__init__`). -/
structure Angles where
  data : Fin 4 → Option (ℝ × ℝ)
  channel : Nat

/-- `Angles.set`. -/
def Angles.set (an : Angles) (sensor : Fin 4) (azimuth elevation : ℝ) : Angles :=
  { an with data := Function.update an.data sensor (some (azimuth, elevation)) }

/-- The per-channel tracker (`BaseStation.__init__`). -/
structure BaseStation where
  channel : Nat
  prev_block : Option FinalizedBlock

/-- `BaseStation.is_second_sweep` (lines 207-216). -/
def BaseStation.is_second_sweep (a b : FinalizedBlock) : Bool :=
  if (a.sensors 0).offset > (b.sensors 0).offset then false
  else if ts_sub b.ts a.ts > 220000 then false
  else true

/-- `BaseStation.process` (lines 220-238): compute the four
azimuth/elevation pairs from the two blocks of a revolution. -/
noncomputable def BaseStation.process (bs : BaseStation)
    (a b : FinalizedBlock) : Angles :=
  (List.finRange 4).foldl
    (fun result i =>
      let firstBeam := (((a.sensors i).offset : ℝ) / PERIODS.getD bs.channel 0) * 2 * Real.pi
      let secondBeam := (((b.sensors i).offset : ℝ) / PERIODS.getD bs.channel 0) * 2 * Real.pi
      result.set i (calculateAE firstBeam secondBeam).1 (calculateAE firstBeam secondBeam).2)
    { data := fun _ => none, channel := bs.channel }

/-- `BaseStation.push` (lines 187-204), mutation made explicit. -/
noncomputable def BaseStation.push (bs : BaseStation) (block : FinalizedBlock) :
    Option Angles × BaseStation :=
  if block.channel ≠ bs.channel then (none, bs)
  else
    match bs.prev_block with
    | some prev =>
      if BaseStation.is_second_sweep prev block then
        (some (bs.process prev block), { bs with prev_block := none })
      else (none, { bs with prev_block := some block })
    | none => (none, { bs with prev_block := some block })

/-- A concrete finalized block for witnesses: channel 3, sensor-0
offset 1000, block timestamp 100. -/
def wFirstBlock : FinalizedBlock :=
  { sensors := ![⟨100, 50, 1000, some 3, some 0⟩, ⟨110, 50, 1100, some 3, some 0⟩,
                 ⟨120, 50, 1200, some 3, some 0⟩, ⟨130, 50, 1300, some 3, some 0⟩],
    channel := 3, ts := 100 }
/-- A concrete finalized block for witnesses: channel 3, sensor-0
offset 2000, block timestamp 5000. -/
def wSecondBlock : FinalizedBlock :=
  { sensors := ![⟨5000, 50, 2000, some 3, some 0⟩, ⟨5010, 50, 2100, some 3, some 0⟩,
                 ⟨5020, 50, 2200, some 3, some 0⟩, ⟨5030, 50, 2300, some 3, some 0⟩],
    channel := 3, ts := 5000 }
/-- A block finalizing although two decoded identities share the channel
but disagree on the slow bit: sensors 0 and 1 both decode channel 3 with
slow bits 0 and 1 respectively. -/
def blkSlowBitConflict : SweepBlock :=
  { SweepBlock.init with
      sensors := ![some ⟨10, 100, 0, some 3, some 0⟩,
                   some ⟨20, 100, 5000, some 3, some 1⟩,
                   some ⟨30, 100, 0, some 3, some 0⟩,
                   some ⟨40, 100, 0, none, none⟩] }
/-- Witness for the amended C4: sensors 0 and 1 decode channels 1 and 2. -/
def blkChannelConflict : SweepBlock :=
  { SweepBlock.init with
      sensors := ![some ⟨10, 100, 0, some 1, some 0⟩,
                   some ⟨20, 100, 5000, some 2, some 0⟩,
                   some ⟨30, 100, 0, some 1, some 0⟩,
                   some ⟨40, 100, 0, none, none⟩] }
/-- The block whose sensor timestamps are `0, 5, 3, 4`: sensor 0 holds
the smallest timestamp, `0`. -/
def blkZeroTs : SweepBlock :=
  { SweepBlock.init with
      sensors := ![some ⟨0, 100, 0, some 7, some 1⟩,
                   some ⟨5, 100, 123, some 7, some 1⟩,
                   some ⟨3, 100, 0, some 7, some 1⟩,
                   some ⟨4, 100, 0, none, none⟩] }
/-- Witness for the amended C5: a fresh block with nonzero timestamps
`7, 5, 9, 8` gets block timestamp `5`. -/
def blkMinTs : SweepBlock :=
  { SweepBlock.init with
      sensors := ![some ⟨7, 100, 0, some 5, some 0⟩,
                   some ⟨5, 100, 50, some 5, some 0⟩,
                   some ⟨9, 100, 0, some 5, some 0⟩,
                   some ⟨8, 100, 0, none, none⟩] }
/-- A complete block: slots filled, sensors 0-2 decode channel 3 with
slow bit 0, sensor 3 undecoded, sensor 1 carries the only offset. -/
def blkComplete : SweepBlock :=
  { SweepBlock.init with
      sensors := ![some ⟨10, 100, 0, some 3, some 0⟩,
                   some ⟨20, 100, 5000, some 3, some 0⟩,
                   some ⟨30, 100, 0, some 3, some 0⟩,
                   some ⟨40, 100, 0, none, none⟩] }
/-- The sensors of `blkComplete`, as a function. -/
def blkCompleteSensors : Fin 4 → SweepData :=
  ![⟨10, 100, 0, some 3, some 0⟩, ⟨20, 100, 5000, some 3, some 0⟩,
    ⟨30, 100, 0, some 3, some 0⟩, ⟨40, 100, 0, none, none⟩]
/-- An aggregator state holding `blkComplete` as its open block. -/
def ppFull : PulseProcessor :=
  { block := some blkComplete, latest_pulse := 40 }
/-- A block with only two decoded identities. -/
def blkTwoIds : SweepBlock :=
  { SweepBlock.init with
      sensors := ![some ⟨10, 100, 0, some 2, some 0⟩,
                   some ⟨20, 100, 500, some 2, some 0⟩,
                   some ⟨30, 100, 0, none, none⟩,
                   some ⟨40, 100, 0, none, none⟩] }

/-! ## Theorems -/

/-- C9: for all 24-bit `a`, `b`, `ts_sub (ts_add a b) b = a`, and
`ts_sub` is never negative and always below `2^24`. -/
theorem C9_wraparound_roundtrip (a b : Nat) (ha : a < 2 ^ 24) (hb : b < 2 ^ 24) :
    ts_sub (ts_add a b) b = a ∧ ts_sub a b < 2 ^ 24 ∧ 0 ≤ ts_sub a b := by
  unfold ts_sub ts_add
  refine ⟨?_, ?_, Nat.zero_le _⟩ <;> omega

/-- Witness for C9 at `a = 5`, `b = 16777215`. -/
theorem C9_wraparound_roundtrip_witness :
    (5 : Nat) < 2 ^ 24 ∧ (16777215 : Nat) < 2 ^ 24 ∧
      (ts_sub (ts_add 5 16777215) 16777215 = 5 ∧
        ts_sub 5 16777215 < 2 ^ 24 ∧ 0 ≤ ts_sub 5 16777215) :=
  ⟨by norm_num, by norm_num,
   C9_wraparound_roundtrip 5 16777215 (by norm_num) (by norm_num)⟩

/-- C1: a tracker holding a pending block, pushed a same-channel block
with non-decreasing sensor-0 offset and timestamp delta at most 220000,
emits exactly the angle result computed from the pair and clears its
pending block. -/
theorem C1_tracker_emits_pair (bs : BaseStation) (prev block : FinalizedBlock)
    (hprev : bs.prev_block = some prev)
    (hch : block.channel = bs.channel)
    (hoff : (prev.sensors 0).offset ≤ (block.sensors 0).offset)
    (hdt : ts_sub block.ts prev.ts ≤ 220000) :
    bs.push block = (some (bs.process prev block), { bs with prev_block := none }) := by
  simp [BaseStation.push, BaseStation.is_second_sweep, hprev, hch, hdt,
    Nat.not_lt.mpr hoff, Nat.not_lt.mpr hdt]

/-- C6: a tracker holding a pending block, pushed a same-channel block
violating either bound of `is_second_sweep`, emits nothing and replaces
its pending block by the new block. -/
theorem C6_tracker_rearms (bs : BaseStation) (prev block : FinalizedBlock)
    (hprev : bs.prev_block = some prev)
    (hch : block.channel = bs.channel)
    (hviol : (prev.sensors 0).offset > (block.sensors 0).offset ∨
      ts_sub block.ts prev.ts > 220000) :
    bs.push block = (none, { bs with prev_block := some block }) := by
  rcases hviol with h | h <;>
    simp [BaseStation.push, BaseStation.is_second_sweep, hprev, hch, h]

/-- Witness for C1: tracker on channel 3 pending `wFirstBlock`, pushed
`wSecondBlock`. -/
theorem C1_tracker_emits_pair_witness :
    (BaseStation.mk 3 (some wFirstBlock)).prev_block = some wFirstBlock ∧
    wSecondBlock.channel = 3 ∧
    (wFirstBlock.sensors 0).offset ≤ (wSecondBlock.sensors 0).offset ∧
    ts_sub wSecondBlock.ts wFirstBlock.ts ≤ 220000 ∧
    (BaseStation.mk 3 (some wFirstBlock)).push wSecondBlock =
      (some ((BaseStation.mk 3 (some wFirstBlock)).process wFirstBlock wSecondBlock),
       BaseStation.mk 3 none) :=
  ⟨rfl, rfl, by decide, by decide,
   C1_tracker_emits_pair (BaseStation.mk 3 (some wFirstBlock)) wFirstBlock wSecondBlock
     rfl rfl (by decide) (by decide)⟩

/-- Witness for C6: pushing `wFirstBlock` (lower sensor-0 offset) onto a
tracker pending `wSecondBlock` violates the monotonicity bound. -/
theorem C6_tracker_rearms_witness :
    (BaseStation.mk 3 (some wSecondBlock)).prev_block = some wSecondBlock ∧
    wFirstBlock.channel = 3 ∧
    (wSecondBlock.sensors 0).offset > (wFirstBlock.sensors 0).offset ∧
    (BaseStation.mk 3 (some wSecondBlock)).push wFirstBlock =
      (none, BaseStation.mk 3 (some wFirstBlock)) :=
  ⟨rfl, rfl, by decide,
   C6_tracker_rearms (BaseStation.mk 3 (some wSecondBlock)) wSecondBlock wFirstBlock
     rfl rfl (Or.inl (by decide))⟩

/-- C7: the angle model computes, per sensor slot, exactly the
documented formulas, with the radian constants `2π/3` and `π/6`. -/
theorem C7_angle_model (bs : BaseStation) (a b : FinalizedBlock) (i : Fin 4)
    (hch : bs.channel < 16) :
    (bs.process a b).data i =
      some
        ((((a.sensors i).offset : ℝ) / PERIODS.getD bs.channel 0 * 2 * Real.pi +
            ((b.sensors i).offset : ℝ) / PERIODS.getD bs.channel 0 * 2 * Real.pi) / 2
            - Real.pi,
         Real.arctan
           (Real.sin
             ((((b.sensors i).offset : ℝ) / PERIODS.getD bs.channel 0 * 2 * Real.pi -
                 ((a.sensors i).offset : ℝ) / PERIODS.getD bs.channel 0 * 2 * Real.pi -
                 2 * Real.pi / 3) / 2) /
            Real.tan (Real.pi / 6))) := by
  have h120 : radians 120 = 2 * Real.pi / 3 := by unfold radians; ring
  have h60 : radians 60 / 2 = Real.pi / 6 := by unfold radians; ring
  have h4 : List.finRange 4 = [0, 1, 2, 3] := by decide
  simp only [BaseStation.process, h4, List.foldl, Angles.set, calculateAE, h120, h60]
  fin_cases i <;>
    simp [Function.update_apply, Fin.ext_iff, sub_sub] <;>
    try (intro h; exact absurd h (by decide))

/-- Witness for C7 on channel 3, sensor slot 0. -/
theorem C7_angle_model_witness :
    (BaseStation.mk 3 none).channel < 16 ∧
    ((BaseStation.mk 3 none).process wFirstBlock wSecondBlock).data 0 =
      some
        ((((wFirstBlock.sensors 0).offset : ℝ) / PERIODS.getD 3 0 * 2 * Real.pi +
            ((wSecondBlock.sensors 0).offset : ℝ) / PERIODS.getD 3 0 * 2 * Real.pi) / 2
            - Real.pi,
         Real.arctan
           (Real.sin
             ((((wSecondBlock.sensors 0).offset : ℝ) / PERIODS.getD 3 0 * 2 * Real.pi -
                 ((wFirstBlock.sensors 0).offset : ℝ) / PERIODS.getD 3 0 * 2 * Real.pi -
                 2 * Real.pi / 3) / 2) /
            Real.tan (Real.pi / 6))) :=
  ⟨by norm_num,
   C7_angle_model (BaseStation.mk 3 none) wFirstBlock wSecondBlock 0 (by norm_num)⟩

/-- C8: `PulseProcessor.push` returns a finalized block exactly when the
gap exceeds 10000 ticks, a block was open, and its finalization
succeeds (the failing block being discarded silently), and
`latest_pulse` is set to the event timestamp unconditionally. -/
theorem C8_aggregator_gap (pp : PulseProcessor) (sensor : Fin 4)
    (ts width offset : Nat) (channel slow_bit : Option Nat) :
    (pp.push sensor ts width offset channel slow_bit).2.latest_pulse = ts ∧
    (∀ out : SweepBlock,
      ((pp.push sensor ts width offset channel slow_bit).1 = some out ↔
        (ts_sub ts pp.latest_pulse > 10000 ∧
          ∃ b, pp.block = some b ∧ (SweepBlock.process b).1 = true ∧
            out = (SweepBlock.process b).2))) ∧
    (ts_sub ts pp.latest_pulse > 10000 →
      (pp.push sensor ts width offset channel slow_bit).2.block =
        some (SweepBlock.init.push sensor ts width offset channel slow_bit).2) := by
  refine ⟨by simp [PulseProcessor.push], fun out => ?_, fun hgap => ?_⟩
  · rcases hb : pp.block with _ | b <;>
      by_cases hgap : ts_sub ts pp.latest_pulse > 10000 <;>
        simp [PulseProcessor.push, hb, hgap]
    by_cases hpr : (SweepBlock.process b).1 <;> simp [hpr, eq_comm]
  · rcases hb : pp.block with _ | b <;>
      simp [PulseProcessor.push, SweepBlock.push, SweepBlock.init, hb, hgap]

/-- A successful channel loop counts exactly the sensors with a decoded
channel. -/
theorem chanLoop_ok_count (l : List SweepData) :
    ∀ (cnt : Nat) (ch sb : Option Nat) (cnt' : Nat) (ch' sb' : Option Nat),
      chanLoop cnt ch sb l = .ok (cnt', ch', sb') →
      cnt' = cnt + (l.filter fun s => s.channel.isSome).length := by
  induction l with
  | nil =>
    intro cnt ch sb cnt' ch' sb' h
    simp only [chanLoop, Except.ok.injEq, Prod.mk.injEq] at h
    simp [h.1]
  | cons s rest ih =>
    intro cnt ch sb cnt' ch' sb' h
    simp only [chanLoop] at h
    cases hc : s.channel with
    | none =>
      rw [hc] at h
      simpa [hc] using ih _ _ _ _ _ _ h
    | some c =>
      rw [hc] at h
      cases hch : ch with
      | none =>
        rw [hch] at h
        have := ih _ _ _ _ _ _ h
        simp [hc, this]
        omega
      | some x =>
        rw [hch] at h
        by_cases hcx : c ≠ x
        · simp [hcx] at h
        · simp only [hcx, if_neg, ite_not, if_false] at h
          simp only [not_not] at hcx
          have := ih _ _ _ _ _ _ (by simpa [hcx] using h)
          simp [hc, this]
          omega

/-- Once the block channel is set, a successful channel loop never
changes it. -/
theorem chanLoop_ok_fix (l : List SweepData) :
    ∀ (cnt : Nat) (x : Nat) (sb : Option Nat) (cnt' : Nat) (ch' sb' : Option Nat),
      chanLoop cnt (some x) sb l = .ok (cnt', ch', sb') → ch' = some x := by
  induction l with
  | nil =>
    intro cnt x sb cnt' ch' sb' h
    simp only [chanLoop, Except.ok.injEq, Prod.mk.injEq] at h
    exact h.2.1.symm
  | cons s rest ih =>
    intro cnt x sb cnt' ch' sb' h
    simp only [chanLoop] at h
    cases hc : s.channel with
    | none => rw [hc] at h; exact ih _ _ _ _ _ _ h
    | some c =>
      rw [hc] at h
      by_cases hcx : c ≠ x
      · simp [hcx] at h
      · simp only [not_not] at hcx
        exact ih _ _ _ _ _ _ (by simpa [hcx] using h)

/-- After a successful channel loop, every decoded channel in the list
equals the resulting block channel. -/
theorem chanLoop_ok_mem (l : List SweepData) :
    ∀ (cnt : Nat) (ch sb : Option Nat) (cnt' : Nat) (ch' sb' : Option Nat),
      chanLoop cnt ch sb l = .ok (cnt', ch', sb') →
      ∀ t ∈ l, ∀ c, t.channel = some c → ch' = some c := by
  induction l with
  | nil => intro _ _ _ _ _ _ _ t ht; simp at ht
  | cons s rest ih =>
    intro cnt ch sb cnt' ch' sb' h t ht c htc
    simp only [chanLoop] at h
    rcases List.mem_cons.mp ht with rfl | hmem
    · rw [htc] at h
      cases hch : ch with
      | none =>
        rw [hch] at h
        exact chanLoop_ok_fix rest _ _ _ _ _ _ h
      | some x =>
        rw [hch] at h
        by_cases hcx : c ≠ x
        · simp [hcx] at h
        · simp only [not_not] at hcx
          subst hcx
          exact chanLoop_ok_fix rest _ _ _ _ _ _ (by simpa using h)
    · cases hc : s.channel with
      | none =>
        rw [hc] at h
        exact ih _ _ _ _ _ _ h t hmem c htc
      | some c0 =>
        rw [hc] at h
        cases hch : ch with
        | none =>
          rw [hch] at h
          exact ih _ _ _ _ _ _ h t hmem c htc
        | some x =>
          rw [hch] at h
          by_cases hcx : c0 ≠ x
          · simp [hcx] at h
          · simp only [not_not] at hcx
            exact ih _ _ _ _ _ _ (by simpa [hcx] using h) t hmem c htc

/-- A successful offset loop accounts for every nonzero offset: starting
from `acc`, the final accumulator holds one sensor exactly when the
total number of nonzero offsets (including `acc`) is one. -/
theorem offsetLoop_ok_count (l : List SweepData) :
    ∀ (acc os : Option SweepData),
      offsetLoop acc l = .ok os →
      (l.filter fun s => s.offset ≠ 0).length +
        (if acc.isSome then 1 else 0) = (if os.isSome then 1 else 0) := by
  induction l with
  | nil =>
    intro acc os h
    simp only [offsetLoop, Except.ok.injEq] at h
    simp [h]
  | cons s rest ih =>
    intro acc os h
    simp only [offsetLoop] at h
    by_cases hs : s.offset ≠ 0
    · rw [if_pos hs] at h
      cases hacc : acc with
      | some o => rw [hacc] at h; simp at h
      | none =>
        rw [hacc] at h
        have := ih _ _ h
        simp only [Option.isSome_some, if_pos, ne_eq, decide_not] at this
        simp only [ne_eq, decide_not] at hs ⊢
        simp [List.filter_cons, hs]
        omega
    · rw [if_neg hs] at h
      have := ih _ _ h
      simp only [ne_eq, decide_not] at this ⊢
      simp only [not_not] at hs
      simp [List.filter_cons, hs, this]

/-- Enumeration of the four sensor slots. -/
theorem finRange_four : List.finRange 4 = [0, 1, 2, 3] := by decide

/-- A block with all four slots filled has exactly those four sensors. -/
theorem sensorList_eq (blk : SweepBlock) (s0 s1 s2 s3 : SweepData)
    (h0 : blk.sensors 0 = some s0) (h1 : blk.sensors 1 = some s1)
    (h2 : blk.sensors 2 = some s2) (h3 : blk.sensors 3 = some s3) :
    blk.sensorList = [s0, s1, s2, s3] := by
  simp [SweepBlock.sensorList, finRange_four, h0, h1, h2, h3]

/-- Propagating the identity into the sensors does not change which
sensors carry a nonzero offset. -/
theorem filter_offset_setIdentity (ch sb : Option Nat) (l : List SweepData) :
    (List.filter (fun s => s.offset ≠ 0) (l.map (setIdentity ch sb))).length =
      (List.filter (fun s => s.offset ≠ 0) l).length := by
  induction l with
  | nil => rfl
  | cons s rest ih =>
    simp only [ne_eq, decide_not] at ih ⊢
    by_cases hs : s.offset = 0 <;>
      simp [setIdentity, List.filter_cons, hs, ih]

/-- C3: a block missing a sensor, or with an identity count other
than 3, or with zero or at least two offset references, fails
finalization and is not marked valid. -/
theorem C3_invalid_block_fails (blk : SweepBlock)
    (h : (∃ i, blk.sensors i = none) ∨ blk.idCount ≠ 3 ∨
      blk.offCount = 0 ∨ 2 ≤ blk.offCount) :
    (SweepBlock.process blk).1 = false ∧
      (SweepBlock.process blk).2.is_valid = blk.is_valid := by
  rcases hs0 : blk.sensors 0 with _ | s0 <;>
    rcases hs1 : blk.sensors 1 with _ | s1 <;>
      rcases hs2 : blk.sensors 2 with _ | s2 <;>
        rcases hs3 : blk.sensors 3 with _ | s3 <;>
          simp only [SweepBlock.process, hs0, hs1, hs2, hs3] <;>
          try exact ⟨trivial, trivial⟩
  have hlist := sensorList_eq blk s0 s1 s2 s3 hs0 hs1 hs2 hs3
  rcases h with ⟨i, hi⟩ | h
  · fin_cases i <;> simp_all
  rcases hcl : chanLoop 0 blk.channel blk.slow_bit [s0, s1, s2, s3] with ⟨ch, sb⟩ | ⟨cnt, ch, sb⟩
  · simp [hcl]
  by_cases hcnt : cnt = 3
  · have hcount := chanLoop_ok_count _ _ _ _ _ _ _ hcl
    have hid : blk.idCount = 3 := by
      rw [SweepBlock.idCount, hlist]; omega
    rcases h with h | h
    · exact absurd hid h
    rcases hol : offsetLoop none
        [setIdentity ch sb s0, setIdentity ch sb s1,
         setIdentity ch sb s2, setIdentity ch sb s3] with os | os
    · simp [hcl, hcnt, hol]
    have hoc := offsetLoop_ok_count _ _ _ hol
    have hofc : (List.filter (fun s => s.offset ≠ 0)
        [setIdentity ch sb s0, setIdentity ch sb s1,
         setIdentity ch sb s2, setIdentity ch sb s3]).length = blk.offCount := by
      have hmap : [setIdentity ch sb s0, setIdentity ch sb s1,
          setIdentity ch sb s2, setIdentity ch sb s3] =
          List.map (setIdentity ch sb) [s0, s1, s2, s3] := rfl
      rw [hmap, filter_offset_setIdentity, SweepBlock.offCount, hlist]
    rcases os with _ | osen
    · simp [hcl, hcnt, hol]
    · norm_num at hoc
      simp only [ne_eq, decide_not] at hofc
      rw [hofc] at hoc
      rcases h with h | h <;> omega
  · simp [hcl, hcnt]

/-- Counterexample to C4: the block has two sensors agreeing on channel
but disagreeing on slow bit, yet `process` succeeds. -/
theorem C4_counterexample :
    blkSlowBitConflict.sensors 0 = some ⟨10, 100, 0, some 3, some 0⟩ ∧
    blkSlowBitConflict.sensors 1 = some ⟨20, 100, 5000, some 3, some 1⟩ ∧
    (some 0 : Option Nat) ≠ some 1 ∧
    (SweepBlock.process blkSlowBitConflict).1 = true := by
  refine ⟨rfl, rfl, by decide, by decide⟩

/-- C4 amended: `process` fails whenever two decoded channels disagree;
the slow bit is never compared. -/
theorem C4_amended_channel_conflict_fails (blk : SweepBlock)
    (s : Fin 4 → SweepData)
    (hsens : ∀ i, blk.sensors i = some (s i))
    (i j : Fin 4) (ci cj : Nat)
    (hi : (s i).channel = some ci) (hj : (s j).channel = some cj)
    (hne : ci ≠ cj) :
    (SweepBlock.process blk).1 = false := by
  rcases hcl : chanLoop 0 blk.channel blk.slow_bit [s 0, s 1, s 2, s 3] with
    ⟨ch, sb⟩ | ⟨cnt, ch, sb⟩
  · simp [SweepBlock.process, hsens 0, hsens 1, hsens 2, hsens 3, hcl]
  · have h1 := chanLoop_ok_mem _ _ _ _ _ _ _ hcl (s i)
      (by fin_cases i <;> simp) ci hi
    have h2 := chanLoop_ok_mem _ _ _ _ _ _ _ hcl (s j)
      (by fin_cases j <;> simp) cj hj
    rw [h1] at h2
    exact absurd (Option.some.inj h2) hne

/-- Witness for the amended C4 theorem at `blkChannelConflict`. -/
theorem C4_amended_channel_conflict_fails_witness :
    (∀ i, blkChannelConflict.sensors i =
      some (![(⟨10, 100, 0, some 1, some 0⟩ : SweepData), ⟨20, 100, 5000, some 2, some 0⟩,
              ⟨30, 100, 0, some 1, some 0⟩, ⟨40, 100, 0, none, none⟩] i)) ∧
    (SweepBlock.process blkChannelConflict).1 = false :=
  ⟨by decide,
   C4_amended_channel_conflict_fails blkChannelConflict
     ![⟨10, 100, 0, some 1, some 0⟩, ⟨20, 100, 5000, some 2, some 0⟩,
       ⟨30, 100, 0, some 1, some 0⟩, ⟨40, 100, 0, none, none⟩]
     (by decide) 0 1 1 2 rfl rfl (by decide)⟩

/-- Back-filling an offset leaves the timestamp unchanged. -/
theorem backfill_ts (r s : SweepData) : (backfill r s).ts = s.ts := by
  unfold backfill; split <;> rfl

/-- Propagating the identity leaves the timestamp unchanged. -/
theorem setIdentity_ts (ch sb : Option Nat) (s : SweepData) :
    (setIdentity ch sb s).ts = s.ts := rfl

/-- The timestamp loop started on `None` computes the plain numeric
minimum as long as no sensor timestamp is `0`. -/
theorem tsLoop_nonzero (a b c d : SweepData)
    (ha : a.ts ≠ 0) (hb : b.ts ≠ 0) (hc : c.ts ≠ 0) (hd : d.ts ≠ 0) :
    tsLoop none [a, b, c, d] = some (min (min (min a.ts b.ts) c.ts) d.ts) := by
  simp only [tsLoop, Option.some.injEq]
  split_ifs <;> omega

/-- Counterexample to C5: `process` succeeds on `blkZeroTs`, whose
sensor timestamps are `0, 5, 3, 4`, yet the block timestamp is `3`
rather than the plain numeric minimum `0`. -/
theorem C5_counterexample :
    (SweepBlock.process blkZeroTs).1 = true ∧
    (blkZeroTs.sensors 0).map SweepData.ts = some 0 ∧
    (blkZeroTs.sensors 1).map SweepData.ts = some 5 ∧
    (blkZeroTs.sensors 2).map SweepData.ts = some 3 ∧
    (blkZeroTs.sensors 3).map SweepData.ts = some 4 ∧
    (SweepBlock.process blkZeroTs).2.ts ≠ some (min (min (min 0 5) 3) 4) := by
  refine ⟨by decide, rfl, rfl, rfl, rfl, by decide⟩

/-- C5 amended: on a fresh block (no block timestamp yet) whose
finalization succeeds and all of whose sensor timestamps are nonzero,
the block timestamp is the plain numeric minimum of the four sensor
timestamps. -/
theorem C5_amended_min_timestamp (blk : SweepBlock) (s : Fin 4 → SweepData)
    (hsens : ∀ i, blk.sensors i = some (s i))
    (hts : blk.ts = none)
    (hnz : ∀ i, (s i).ts ≠ 0)
    (hsucc : (SweepBlock.process blk).1 = true) :
    (SweepBlock.process blk).2.ts =
      some (min (min (min (s 0).ts (s 1).ts) (s 2).ts) (s 3).ts) := by
  rcases hcl : chanLoop 0 blk.channel blk.slow_bit [s 0, s 1, s 2, s 3] with
    ⟨ch, sb⟩ | ⟨cnt, ch, sb⟩
  · simp [SweepBlock.process, hsens 0, hsens 1, hsens 2, hsens 3, hcl] at hsucc
  by_cases hcnt : cnt = 3
  · rcases hol : offsetLoop none
        [setIdentity ch sb (s 0), setIdentity ch sb (s 1),
         setIdentity ch sb (s 2), setIdentity ch sb (s 3)] with os | os
    · simp [SweepBlock.process, hsens 0, hsens 1, hsens 2, hsens 3, hcl, hcnt, hol] at hsucc
    rcases os with _ | osen
    · simp [SweepBlock.process, hsens 0, hsens 1, hsens 2, hsens 3, hcl, hcnt, hol] at hsucc
    · have hmin := tsLoop_nonzero
        (backfill osen (setIdentity ch sb (s 0)))
        (backfill osen (setIdentity ch sb (s 1)))
        (backfill osen (setIdentity ch sb (s 2)))
        (backfill osen (setIdentity ch sb (s 3)))
        (by rw [backfill_ts, setIdentity_ts]; exact hnz 0)
        (by rw [backfill_ts, setIdentity_ts]; exact hnz 1)
        (by rw [backfill_ts, setIdentity_ts]; exact hnz 2)
        (by rw [backfill_ts, setIdentity_ts]; exact hnz 3)
      simp only [backfill_ts, setIdentity_ts] at hmin
      simp [SweepBlock.process, hsens 0, hsens 1, hsens 2, hsens 3, hcl, hcnt, hol,
        hts, hmin]
  · simp [SweepBlock.process, hsens 0, hsens 1, hsens 2, hsens 3, hcl, hcnt] at hsucc

/-- Witness for the amended C5 theorem at `blkMinTs`. -/
theorem C5_amended_min_timestamp_witness :
    blkMinTs.ts = none ∧
    (SweepBlock.process blkMinTs).1 = true ∧
    (SweepBlock.process blkMinTs).2.ts = some (min (min (min 7 5) 9) 8) :=
  ⟨rfl, by decide,
   C5_amended_min_timestamp blkMinTs
     ![⟨7, 100, 0, some 5, some 0⟩, ⟨5, 100, 50, some 5, some 0⟩,
       ⟨9, 100, 0, some 5, some 0⟩, ⟨8, 100, 0, none, none⟩]
     (by decide) rfl (by decide) (by decide)⟩

/-- A channel loop over sensors whose decoded channels all agree with
the (optional) initial channel never fails. -/
theorem chanLoop_no_conflict (l : List SweepData) :
    ∀ (cnt : Nat) (chO sb : Option Nat) (ch : Nat),
      (∀ t ∈ l, ∀ c, t.channel = some c → c = ch) →
      (∀ x, chO = some x → x = ch) →
      ∃ cnt2 ch2 sb2, chanLoop cnt chO sb l = .ok (cnt2, ch2, sb2) := by
  induction l with
  | nil => intro cnt chO sb ch _ _; exact ⟨cnt, chO, sb, rfl⟩
  | cons s rest ih =>
    intro cnt chO sb ch hl hinit
    have hrest : ∀ t ∈ rest, ∀ c, t.channel = some c → c = ch :=
      fun t ht => hl t (List.mem_cons_of_mem s ht)
    cases hc : s.channel with
    | none =>
      obtain ⟨cnt2, ch2, sb2, h⟩ := ih cnt chO sb ch hrest hinit
      exact ⟨cnt2, ch2, sb2, by simp only [chanLoop, hc]; exact h⟩
    | some c =>
      have hcch : c = ch := hl s (List.mem_cons_self s rest) c hc
      cases hco : chO with
      | none =>
        obtain ⟨cnt2, ch2, sb2, h⟩ := ih (cnt + 1) (some c) s.slow_bit ch hrest
          (fun x hx => by rw [hcch] at hx; exact (Option.some.inj hx).symm ▸ rfl)
        exact ⟨cnt2, ch2, sb2, by simp only [chanLoop, hc, hco]; exact h⟩
      | some x =>
        have hxch : x = ch := hinit x hco
        obtain ⟨cnt2, ch2, sb2, h⟩ := ih (cnt + 1) (some x) sb ch hrest
          (fun y hy => by rw [← hxch]; exact (Option.some.inj hy).symm)
        refine ⟨cnt2, ch2, sb2, ?_⟩
        simp only [chanLoop, hc, hco]
        rw [if_neg (by rw [hcch, hxch]; simp : ¬c ≠ x)]
        exact h

/-- An offset loop over sensors that all have zero offset keeps its
accumulator. -/
theorem offsetLoop_all_zero (l : List SweepData) :
    ∀ acc, (∀ t ∈ l, t.offset = 0) → offsetLoop acc l = .ok acc := by
  induction l with
  | nil => intro acc _; rfl
  | cons s rest ih =>
    intro acc hz
    have hs : s.offset = 0 := hz s (List.mem_cons_self s rest)
    simp only [offsetLoop, hs]
    simpa using ih acc (fun t ht => hz t (List.mem_cons_of_mem s ht))

/-- An offset loop over a list with a single nonzero offset (at a known
position) returns that sensor. -/
theorem offsetLoop_split (l1 l2 : List SweepData) (u : SweepData)
    (hnz : u.offset ≠ 0)
    (h1 : ∀ t ∈ l1, t.offset = 0) (h2 : ∀ t ∈ l2, t.offset = 0) :
    offsetLoop none (l1 ++ u :: l2) = .ok (some u) := by
  induction l1 with
  | nil =>
    simp only [List.nil_append, offsetLoop, if_pos hnz]
    exact offsetLoop_all_zero l2 (some u) h2
  | cons t l1 ih =>
    have ht : t.offset = 0 := h1 t (List.mem_cons_self t l1)
    simp only [List.cons_append, offsetLoop, ht]
    simpa using ih (fun t2 ht2 => h1 t2 (List.mem_cons_of_mem t ht2))

/-- The offset loop on the four sensor slots with a single nonzero
offset at slot `k`. -/
theorem offsetLoop_four (s : Fin 4 → SweepData) (k : Fin 4)
    (hk : (s k).offset ≠ 0) (hz : ∀ i, i ≠ k → (s i).offset = 0) :
    offsetLoop none [s 0, s 1, s 2, s 3] = .ok (some (s k)) := by
  fin_cases k
  · exact offsetLoop_split [] [s 1, s 2, s 3] (s 0) hk (by simp)
      (by intro t ht
          simp only [List.mem_cons, List.not_mem_nil, or_false] at ht
          rcases ht with rfl | rfl | rfl <;> exact hz _ (by decide))
  · exact offsetLoop_split [s 0] [s 2, s 3] (s 1) hk
      (by intro t ht
          simp only [List.mem_cons, List.not_mem_nil, or_false] at ht
          rcases ht with rfl <;> exact hz _ (by decide))
      (by intro t ht
          simp only [List.mem_cons, List.not_mem_nil, or_false] at ht
          rcases ht with rfl | rfl <;> exact hz _ (by decide))
  · exact offsetLoop_split [s 0, s 1] [s 3] (s 2) hk
      (by intro t ht
          simp only [List.mem_cons, List.not_mem_nil, or_false] at ht
          rcases ht with rfl | rfl <;> exact hz _ (by decide))
      (by intro t ht
          simp only [List.mem_cons, List.not_mem_nil, or_false] at ht
          rcases ht with rfl <;> exact hz _ (by decide))
  · exact offsetLoop_split [s 0, s 1, s 2] [] (s 3) hk
      (by intro t ht
          simp only [List.mem_cons, List.not_mem_nil, or_false] at ht
          rcases ht with rfl | rfl | rfl <;> exact hz _ (by decide))
      (by simp)

/-- The back-filled offset is congruent to the timestamp delta
modulo `2^24`. -/
theorem ts_backfill_congruence (r x y : Nat) :
    ((ts_add r (ts_sub x y) : Int) - (r : Int)) % 2 ^ 24 =
      ((x : Int) - (y : Int)) % 2 ^ 24 := by
  unfold ts_add ts_sub
  push_cast
  omega

/-- C2: a block with all four slots filled, exactly three decoded and
agreeing identities, and exactly one nonzero offset always finalizes,
and every back-filled offset differs from the reference offset by the
timestamp delta modulo `2^24`. -/
theorem C2_complete_block_finalizes (blk : SweepBlock) (s : Fin 4 → SweepData)
    (hsens : ∀ i, blk.sensors i = some (s i))
    (hblkch : blk.channel = none)
    (j : Fin 4) (hjnone : (s j).channel = none)
    (ch : Nat) (sb : Option Nat)
    (hid : ∀ i, i ≠ j → (s i).channel = some ch ∧ (s i).slow_bit = sb)
    (k : Fin 4) (hkoff : (s k).offset ≠ 0)
    (hoff : ∀ i, i ≠ k → (s i).offset = 0) :
    (SweepBlock.process blk).1 = true ∧
    ∀ i, ∃ u, (SweepBlock.process blk).2.sensors i = some u ∧
      u.ts = (s i).ts ∧
      ((u.offset : Int) - ((s k).offset : Int)) % 2 ^ 24 =
        ((u.ts : Int) - ((s k).ts : Int)) % 2 ^ 24 := by
  have hchan : ∀ t ∈ [s 0, s 1, s 2, s 3], ∀ c, t.channel = some c → c = ch := by
    intro t ht c htc
    simp only [List.mem_cons, List.not_mem_nil, or_false] at ht
    have key : ∀ i : Fin 4, t = s i → c = ch := by
      intro i hti
      subst hti
      by_cases hij : i = j
      · rw [hij, hjnone] at htc; exact absurd htc (by simp)
      · rw [(hid i hij).1] at htc; exact (Option.some.inj htc).symm
    rcases ht with rfl | rfl | rfl | rfl
    · exact key 0 rfl
    · exact key 1 rfl
    · exact key 2 rfl
    · exact key 3 rfl
  obtain ⟨cnt2, ch2, sb2, hcl⟩ :=
    chanLoop_no_conflict [s 0, s 1, s 2, s 3] 0 blk.channel blk.slow_bit ch hchan
      (by rw [hblkch]; intro x hx; exact absurd hx (by simp))
  have hcnt := chanLoop_ok_count _ _ _ _ _ _ _ hcl
  have hCif : ∀ i : Fin 4, (s i).channel.isSome = decide (i ≠ j) := by
    intro i
    by_cases hij : i = j
    · simp [hij, hjnone]
    · simp [hij, (hid i hij).1]
  have hflen : (List.filter (fun t => t.channel.isSome) [s 0, s 1, s 2, s 3]).length = 3 := by
    simp only [List.filter_cons, List.filter_nil, hCif]
    fin_cases j <;> simp
  have hcnt3 : cnt2 = 3 := by omega
  subst hcnt3
  have hol : offsetLoop none
      [setIdentity ch2 sb2 (s 0), setIdentity ch2 sb2 (s 1),
       setIdentity ch2 sb2 (s 2), setIdentity ch2 sb2 (s 3)] =
      .ok (some (setIdentity ch2 sb2 (s k))) := by
    have h4 := offsetLoop_four (fun i => setIdentity ch2 sb2 (s i)) k
      (by simpa [setIdentity] using hkoff)
      (fun i hik => by simpa [setIdentity] using hoff i hik)
    simpa using h4
  have hcong : ∀ i : Fin 4,
      (((backfill (setIdentity ch2 sb2 (s k)) (setIdentity ch2 sb2 (s i))).offset : Int) -
        ((s k).offset : Int)) % 2 ^ 24 =
      ((((s i).ts : Nat) : Int) - (((s k).ts : Nat) : Int)) % 2 ^ 24 := by
    intro i
    by_cases hik : i = k
    · subst hik
      simp [backfill, setIdentity, hkoff]
    · have hz : (s i).offset = 0 := hoff i hik
      simp only [backfill, setIdentity, hz, if_pos]
      exact ts_backfill_congruence _ _ _
  constructor
  · simp [SweepBlock.process, hsens 0, hsens 1, hsens 2, hsens 3, hcl, hol]
  · intro i
    have hsen : (SweepBlock.process blk).2.sensors =
        ![some (backfill (setIdentity ch2 sb2 (s k)) (setIdentity ch2 sb2 (s 0))),
          some (backfill (setIdentity ch2 sb2 (s k)) (setIdentity ch2 sb2 (s 1))),
          some (backfill (setIdentity ch2 sb2 (s k)) (setIdentity ch2 sb2 (s 2))),
          some (backfill (setIdentity ch2 sb2 (s k)) (setIdentity ch2 sb2 (s 3)))] := by
      simp [SweepBlock.process, hsens 0, hsens 1, hsens 2, hsens 3, hcl, hol]
    refine ⟨backfill (setIdentity ch2 sb2 (s k)) (setIdentity ch2 sb2 (s i)), ?_, ?_, ?_⟩
    · rw [hsen]; fin_cases i <;> rfl
    · rw [backfill_ts, setIdentity_ts]
    · rw [backfill_ts, setIdentity_ts]
      exact hcong i

/-- Witness for C2 at `blkComplete` (undecoded slot 3, offset slot 1). -/
theorem C2_complete_block_finalizes_witness :
    blkComplete.channel = none ∧
    (blkCompleteSensors 3).channel = none ∧
    (∀ i, i ≠ (3 : Fin 4) →
      (blkCompleteSensors i).channel = some 3 ∧
      (blkCompleteSensors i).slow_bit = some 0) ∧
    (blkCompleteSensors 1).offset ≠ 0 ∧
    ((SweepBlock.process blkComplete).1 = true ∧
      ∀ i, ∃ u, (SweepBlock.process blkComplete).2.sensors i = some u ∧
        u.ts = (blkCompleteSensors i).ts ∧
        ((u.offset : Int) - ((blkCompleteSensors 1).offset : Int)) % 2 ^ 24 =
          ((u.ts : Int) - ((blkCompleteSensors 1).ts : Int)) % 2 ^ 24) :=
  ⟨rfl, rfl, by decide, by decide,
   C2_complete_block_finalizes blkComplete blkCompleteSensors
     (by decide) rfl 3 rfl 3 (some 0) (by decide) 1 (by decide) (by decide)⟩

/-- Propagating the identity sets the channel. -/
theorem setIdentity_channel (ch sb : Option Nat) (s : SweepData) :
    (setIdentity ch sb s).channel = ch := rfl

/-- Propagating the identity sets the slow bit. -/
theorem setIdentity_slow_bit (ch sb : Option Nat) (s : SweepData) :
    (setIdentity ch sb s).slow_bit = sb := rfl

/-- Back-filling an offset leaves the channel unchanged. -/
theorem backfill_channel (r s : SweepData) : (backfill r s).channel = s.channel := by
  unfold backfill; split <;> rfl

/-- Back-filling an offset leaves the slow bit unchanged. -/
theorem backfill_slow_bit (r s : SweepData) : (backfill r s).slow_bit = s.slow_bit := by
  unfold backfill; split <;> rfl

/-- A block that finalizes successfully had all four sensor slots
filled. -/
theorem process_ok_sensors (blk : SweepBlock)
    (hsucc : (SweepBlock.process blk).1 = true) :
    ∃ s : Fin 4 → SweepData, ∀ i, blk.sensors i = some (s i) := by
  rcases hs0 : blk.sensors 0 with _ | s0 <;>
    rcases hs1 : blk.sensors 1 with _ | s1 <;>
      rcases hs2 : blk.sensors 2 with _ | s2 <;>
        rcases hs3 : blk.sensors 3 with _ | s3 <;>
          try (simp [SweepBlock.process, hs0, hs1, hs2, hs3] at hsucc; done)
  exact ⟨![s0, s1, s2, s3], by
    intro i; fin_cases i
    · exact hs0
    · exact hs1
    · exact hs2
    · exact hs3⟩

/-- A successfully processed block is valid: channel resolved (and
bounded when all sensor channels are), all slots filled, identity
propagated to every sensor. -/
theorem process_valid_helper (blk : SweepBlock) (s : Fin 4 → SweepData)
    (hsens : ∀ i, blk.sensors i = some (s i))
    (hbound : ∀ i c, (s i).channel = some c → c < 16)
    (hsucc : (SweepBlock.process blk).1 = true) :
    (SweepBlock.process blk).2.is_valid = true ∧
    (∃ c, (SweepBlock.process blk).2.channel = some c ∧ c < 16) ∧
    ∀ i, ∃ u, (SweepBlock.process blk).2.sensors i = some u ∧
      u.channel = (SweepBlock.process blk).2.channel ∧
      u.slow_bit = (SweepBlock.process blk).2.slow_bit := by
  rcases hcl : chanLoop 0 blk.channel blk.slow_bit [s 0, s 1, s 2, s 3] with
    ⟨ch2, sb2⟩ | ⟨cnt2, ch2, sb2⟩
  · simp [SweepBlock.process, hsens 0, hsens 1, hsens 2, hsens 3, hcl] at hsucc
  by_cases hcnt : cnt2 = 3
  case neg =>
    simp [SweepBlock.process, hsens 0, hsens 1, hsens 2, hsens 3, hcl, hcnt] at hsucc
  subst hcnt
  rcases hol : offsetLoop none
      [setIdentity ch2 sb2 (s 0), setIdentity ch2 sb2 (s 1),
       setIdentity ch2 sb2 (s 2), setIdentity ch2 sb2 (s 3)] with os | os
  · simp [SweepBlock.process, hsens 0, hsens 1, hsens 2, hsens 3, hcl, hol] at hsucc
  rcases os with _ | osen
  · simp [SweepBlock.process, hsens 0, hsens 1, hsens 2, hsens 3, hcl, hol] at hsucc
  have hcnt2 := chanLoop_ok_count _ _ _ _ _ _ _ hcl
  have hpos : 0 < (List.filter (fun t => t.channel.isSome) [s 0, s 1, s 2, s 3]).length := by
    omega
  obtain ⟨t, htmem⟩ := List.exists_mem_of_length_pos hpos
  obtain ⟨htl, htsome⟩ := List.mem_filter.mp htmem
  obtain ⟨c, hc⟩ := Option.isSome_iff_exists.mp (by simpa using htsome)
  have hch2 : ch2 = some c := chanLoop_ok_mem _ _ _ _ _ _ _ hcl t htl c hc
  have hclt : c < 16 := by
    simp only [List.mem_cons, List.not_mem_nil, or_false] at htl
    rcases htl with rfl | rfl | rfl | rfl
    · exact hbound 0 c hc
    · exact hbound 1 c hc
    · exact hbound 2 c hc
    · exact hbound 3 c hc
  refine ⟨?_, ⟨c, ?_, hclt⟩, ?_⟩
  · simp [SweepBlock.process, hsens 0, hsens 1, hsens 2, hsens 3, hcl, hol]
  · have hchval : (SweepBlock.process blk).2.channel = ch2 := by
      simp [SweepBlock.process, hsens 0, hsens 1, hsens 2, hsens 3, hcl, hol]
    rw [hchval, hch2]
  · intro i
    refine ⟨backfill osen (setIdentity ch2 sb2 (s i)), ?_, ?_, ?_⟩
    · fin_cases i <;>
        simp [SweepBlock.process, hsens 0, hsens 1, hsens 2, hsens 3, hcl, hol]
    · rw [backfill_channel, setIdentity_channel]
      have hchval2 : (SweepBlock.process blk).2.channel = ch2 := by
        simp [SweepBlock.process, hsens 0, hsens 1, hsens 2, hsens 3, hcl, hol]
      rw [hchval2]
    · rw [backfill_slow_bit, setIdentity_slow_bit]
      have hsbval : (SweepBlock.process blk).2.slow_bit = sb2 := by
        simp [SweepBlock.process, hsens 0, hsens 1, hsens 2, hsens 3, hcl, hol]
      rw [hsbval]

/-- C10: every block emitted by `PulseProcessor.push` is valid: marked
valid, channel resolved and in `0..15` (provided the decoded channels
fed into the aggregator are, as the frame decoder guarantees), all four
slots filled, every sensor carrying the block channel and slow bit. -/
theorem C10_emitted_block_valid (pp : PulseProcessor) (sensor : Fin 4)
    (ts width offset : Nat) (channel slow_bit : Option Nat)
    (hbound : ∀ b, pp.block = some b → ∀ i u, b.sensors i = some u →
      ∀ c, u.channel = some c → c < 16)
    (out : SweepBlock)
    (hout : (pp.push sensor ts width offset channel slow_bit).1 = some out) :
    out.is_valid = true ∧
    (∃ c, out.channel = some c ∧ c < 16) ∧
    ∀ i, ∃ u, out.sensors i = some u ∧
      u.channel = out.channel ∧ u.slow_bit = out.slow_bit := by
  rcases hb : pp.block with _ | b
  · by_cases hgap : ts_sub ts pp.latest_pulse > 10000 <;>
      simp [PulseProcessor.push, hb, hgap] at hout
  by_cases hgap : ts_sub ts pp.latest_pulse > 10000
  · by_cases hpr : (SweepBlock.process b).1 = true
    · simp [PulseProcessor.push, hb, hgap, hpr] at hout
      obtain ⟨s, hsens⟩ := process_ok_sensors b hpr
      have hbound2 : ∀ i c, (s i).channel = some c → c < 16 :=
        fun i c hc => hbound b hb i (s i) (hsens i) c hc
      have hvalid := process_valid_helper b s hsens hbound2 hpr
      rw [← hout]
      exact hvalid
    · simp [PulseProcessor.push, hb, hgap, hpr] at hout
  · simp [PulseProcessor.push, hb, hgap] at hout

/-- Witness for C10: pushing a far-future pulse into `ppFull` emits the
finalized `blkComplete`, which is valid on channel 3. -/
theorem C10_emitted_block_valid_witness :
    (∀ b, ppFull.block = some b → ∀ i u, b.sensors i = some u →
      ∀ c, u.channel = some c → c < 16) ∧
    (ppFull.push 0 20000 100 0 none none).1 = some (SweepBlock.process blkComplete).2 ∧
    ((SweepBlock.process blkComplete).2.is_valid = true ∧
      (∃ c, (SweepBlock.process blkComplete).2.channel = some c ∧ c < 16) ∧
      ∀ i, ∃ u, (SweepBlock.process blkComplete).2.sensors i = some u ∧
        u.channel = (SweepBlock.process blkComplete).2.channel ∧
        u.slow_bit = (SweepBlock.process blkComplete).2.slow_bit) :=
  ⟨by decide, by decide,
   C10_emitted_block_valid ppFull 0 20000 100 0 none none (by decide)
     (SweepBlock.process blkComplete).2 (by decide)⟩

/-- Witness for C3 at `blkTwoIds` (identity count 2). -/
theorem C3_invalid_block_fails_witness :
    ((∃ i, blkTwoIds.sensors i = none) ∨ blkTwoIds.idCount ≠ 3 ∨
      blkTwoIds.offCount = 0 ∨ 2 ≤ blkTwoIds.offCount) ∧
    ((SweepBlock.process blkTwoIds).1 = false ∧
      (SweepBlock.process blkTwoIds).2.is_valid = blkTwoIds.is_valid) :=
  ⟨Or.inr (Or.inl (by decide)),
   C3_invalid_block_fails blkTwoIds (Or.inr (Or.inl (by decide)))⟩

/-- Witness for C8: pushing a far pulse into `ppFull` emits the
processed block, resets the open block, and updates the latest pulse. -/
theorem C8_aggregator_gap_witness :
    (ppFull.push 1 20000 100 0 none none).2.latest_pulse = 20000 ∧
    (∀ out : SweepBlock,
      ((ppFull.push 1 20000 100 0 none none).1 = some out ↔
        (ts_sub 20000 ppFull.latest_pulse > 10000 ∧
          ∃ b, ppFull.block = some b ∧ (SweepBlock.process b).1 = true ∧
            out = (SweepBlock.process b).2))) ∧
    (ts_sub 20000 ppFull.latest_pulse > 10000 →
      (ppFull.push 1 20000 100 0 none none).2.block =
        some (SweepBlock.init.push 1 20000 100 0 none none).2) :=
  C8_aggregator_gap ppFull 1 20000 100 0 none none
